import Mathlib

/-!
Verification of the draftIQ snake-draft engine and AI scoring helpers.

The definitions below are a shallow embedding of the TypeScript sources:
the draft state machine (generateSnakeDraftOrder, validatePick, executePick,
initializeDraft, undoLastPick), the psychology module (detectPositionalRun,
calculatePanicBonus, calculateScarcityIndex), the bye-week penalty of the
decision engine, and the need calculator.  JavaScript numbers are modelled
by exact rationals, JavaScript Math.round by rounding half toward positive
infinity, Date.now and nanoid by explicit parameters, and the stable
Array.prototype.sort by insertion sort (all comparison keys that arise in
the statements are pairwise distinct, so any stable comparison sort agrees
with the source).
-/

namespace DraftIQ

/-- JavaScript Math.round on an exact rational: nearest integer, halves
rounded toward positive infinity. -/
def jsRound (q : ℚ) : ℤ := ⌊q + 1 / 2⌋

/-- Fantasy positions, from the Position union type in src/lib/types.ts. -/
inductive Position where
  | QB
  | RB
  | WR
  | TE
  | K
  | DEF
deriving DecidableEq

instance : Fintype Position :=
  ⟨⟨{Position.QB, Position.RB, Position.WR, Position.TE, Position.K, Position.DEF}, by decide⟩,
    by intro x; cases x <;> decide⟩

/-- Player record (src/lib/types.ts), restricted to the fields the draft
engine and the AI scoring helpers read. -/
structure Player where
  id : String
  name : String
  position : Position
  team : String
  byeWeek : ℕ
  adp : ℚ
  tier : ℕ
deriving DecidableEq

/-- The needs record stored on a team; initializeDraft fills every slot
with 100. -/
structure NeedRecord where
  QB : ℤ
  RB : ℤ
  WR : ℤ
  TE : ℤ
  K : ℤ
  DEF : ℤ
deriving DecidableEq

/-- Team record (src/lib/types.ts); byeWeekCount is the bye-week tally map,
modelled as an association list. -/
structure Team where
  id : String
  name : String
  isUser : Bool
  roster : List Player
  needs : NeedRecord
  byeWeekCount : List (ℕ × ℕ)
  draftPosition : ℕ
deriving DecidableEq

/-- DraftPick record (src/lib/types.ts). -/
structure DraftPick where
  id : String
  draftId : String
  teamId : String
  playerId : String
  pickNumber : ℕ
  round : ℕ
  pickInRound : ℕ
  timestamp : ℕ
  isAIPick : Bool
deriving DecidableEq

/-- Roster slot targets from DraftSettings. -/
structure RosterSlots where
  QB : ℕ
  RB : ℕ
  WR : ℕ
  TE : ℕ
  FLEX : ℕ
  K : ℕ
  DEF : ℕ
  BENCH : ℕ
deriving DecidableEq

/-- Scoring formats from DraftSettings. -/
inductive ScoringType where
  | standard
  | ppr
  | halfPpr
deriving DecidableEq

/-- DraftSettings (src/lib/types.ts). -/
structure DraftSettings where
  numTeams : ℕ
  numRounds : ℕ
  pickTimeLimit : ℕ
  scoringType : ScoringType
  rosterSlots : RosterSlots
deriving DecidableEq

/-- Draft status union type. -/
inductive DraftStatus where
  | setup
  | inProgress
  | completed
deriving DecidableEq

/-- DraftState aggregate (src/lib/types.ts). -/
structure DraftState where
  id : String
  teams : List Team
  picks : List DraftPick
  currentPickIndex : ℕ
  availablePlayers : List Player
  draftOrder : List String
  settings : DraftSettings
  status : DraftStatus
  createdAt : ℕ
  updatedAt : ℕ
deriving DecidableEq

/-! ### Draft state machine (src/unnamed/part_001, the draft engine) -/

/-- generateSnakeDraftOrder: for each round push the team ids forward on
even round indices and reversed on odd round indices. -/
def generateSnakeDraftOrder (teams : List Team) (numRounds : ℕ) : List String :=
  let teamIds := teams.map (fun t => t.id)
  ((List.range numRounds).map
    (fun round => if round % 2 = 0 then teamIds else teamIds.reverse)).flatten

/-- The closed set of validation errors.  The source returns the literal
message strings (Draft is not in progress / Not this teams turn / Player
not available / Player already drafted / Player not found / Team not
found); they are represented by this inductive. -/
inductive PickError where
  | notInProgress
  | wrongTurn
  | playerNotAvailable
  | alreadyDrafted
  | playerNotFound
  | teamNotFound
deriving DecidableEq

/-- validatePick: status must be in_progress, the team at
draftOrder[currentPickIndex] must be the caller (an out-of-range index
yields undefined in the source and therefore never equals a team id), the
player must be available, and the player must not appear in picks. -/
def validatePick (draftState : DraftState) (teamId playerId : String) : Option PickError :=
  if draftState.status ≠ DraftStatus.inProgress then some PickError.notInProgress
  else if draftState.draftOrder[draftState.currentPickIndex]? ≠ some teamId then
    some PickError.wrongTurn
  else if ¬ draftState.availablePlayers.any (fun p => p.id = playerId) then
    some PickError.playerNotAvailable
  else if draftState.picks.any (fun pick => pick.playerId = playerId) then
    some PickError.alreadyDrafted
  else none

/-- isDraftComplete: picks.length has reached numTeams times numRounds. -/
def isDraftComplete (draftState : DraftState) : Bool :=
  draftState.settings.numTeams * draftState.settings.numRounds ≤ draftState.picks.length

/-- getCurrentRound: floor division as in the source (the claims only
involve states with at least one team, where Nat division agrees with the
JavaScript expression). -/
def getCurrentRound (draftState : DraftState) : ℕ :=
  draftState.currentPickIndex / draftState.settings.numTeams + 1

/-- getCurrentPickInRound. -/
def getCurrentPickInRound (draftState : DraftState) : ℕ :=
  draftState.currentPickIndex % draftState.settings.numTeams + 1

/-- The result object of executePick. -/
structure PickResult where
  success : Bool
  error : Option PickError
  updatedState : Option DraftState
deriving DecidableEq

/-- executePick: validate, look up player and team, build the DraftPick,
append the player to the matching team roster, filter the player out of
availablePlayers, append the pick, advance the index, and recompute the
status.  Date.now is passed in as the parameter now. -/
def executePick (draftState : DraftState) (teamId playerId : String) (now : ℕ) : PickResult :=
  match validatePick draftState teamId playerId with
  | some e => { success := false, error := some e, updatedState := none }
  | none =>
    match draftState.availablePlayers.find? (fun p => p.id = playerId) with
    | none => { success := false, error := some PickError.playerNotFound, updatedState := none }
    | some player =>
      match draftState.teams.find? (fun t => t.id = teamId) with
      | none => { success := false, error := some PickError.teamNotFound, updatedState := none }
      | some team =>
        let pickNumber := draftState.currentPickIndex + 1
        let newPick : DraftPick :=
          { id := "pick-" ++ toString pickNumber
            draftId := draftState.id
            teamId := teamId
            playerId := playerId
            pickNumber := pickNumber
            round := getCurrentRound draftState
            pickInRound := getCurrentPickInRound draftState
            timestamp := now
            isAIPick := !team.isUser }
        let updatedTeams := draftState.teams.map (fun t =>
          if t.id = teamId then { t with roster := t.roster ++ [player] } else t)
        let updatedAvailablePlayers :=
          draftState.availablePlayers.filter (fun p => p.id ≠ playerId)
        let updatedPicks := draftState.picks ++ [newPick]
        let updatedState : DraftState :=
          { draftState with
            teams := updatedTeams
            picks := updatedPicks
            availablePlayers := updatedAvailablePlayers
            currentPickIndex := draftState.currentPickIndex + 1
            status :=
              if isDraftComplete { draftState with picks := updatedPicks } then
                DraftStatus.completed
              else DraftStatus.inProgress
            updatedAt := now }
        { success := true, error := none, updatedState := some updatedState }

/-- Decimal digit characters, as produced by JavaScript number-to-string
conversion inside the team id template literal. -/
def digitChar (d : ℕ) : Char :=
  if d = 0 then Char.ofNat 48
  else if d = 1 then Char.ofNat 49
  else if d = 2 then Char.ofNat 50
  else if d = 3 then Char.ofNat 51
  else if d = 4 then Char.ofNat 52
  else if d = 5 then Char.ofNat 53
  else if d = 6 then Char.ofNat 54
  else if d = 7 then Char.ofNat 55
  else if d = 8 then Char.ofNat 56
  else if d = 9 then Char.ofNat 57
  else Char.ofNat 42

/-- Decimal string of a natural number, modelling the JavaScript template
literal conversion used for AI team ids. -/
def decimalString (n : ℕ) : String :=
  if n = 0 then String.mk [Char.ofNat 48]
  else String.mk (((Nat.digits 10 n).map digitChar).reverse)

/-- The all-100 needs record that initializeDraft stores on every team. -/
def mkInitialNeeds : NeedRecord :=
  { QB := 100, RB := 100, WR := 100, TE := 100, K := 100, DEF := 100 }

/-- initializeDraft: one user team at userDraftPosition, one AI team for
every other position 1..numTeams, teams sorted ascending by draft
position, snake order generated, empty picks, status in_progress.  The
nanoid draft identifier and Date.now are the parameters draftId and now;
the aiProfileIds argument is carried but, as in the source shown, not used
to build the state. -/
def initializeDraft (userTeamName : String) (userDraftPosition : ℕ)
    (settings : DraftSettings) (aiProfileIds : List String)
    (availablePlayers : List Player) (draftId : String) (now : ℕ) : DraftState :=
  let userTeam : Team :=
    { id := "team-user", name := userTeamName, isUser := true, roster := [],
      needs := mkInitialNeeds, byeWeekCount := [], draftPosition := userDraftPosition }
  let aiTeams : List Team :=
    (((List.range settings.numTeams).map (fun i => i + 1)).filter
      (fun i => i ≠ userDraftPosition)).map
      (fun i =>
        { id := "team-" ++ decimalString i, name := "Team " ++ decimalString i,
          isUser := false, roster := [], needs := mkInitialNeeds,
          byeWeekCount := [], draftPosition := i })
  let teams :=
    (userTeam :: aiTeams).insertionSort (fun a b => a.draftPosition ≤ b.draftPosition)
  let draftOrder := generateSnakeDraftOrder teams settings.numRounds
  { id := draftId, teams := teams, picks := [], currentPickIndex := 0,
    availablePlayers := availablePlayers, draftOrder := draftOrder,
    settings := settings, status := DraftStatus.inProgress,
    createdAt := now, updatedAt := now }

/-- undoLastPick from the client store (src/unnamed/part_000): no-op when
picks is empty; otherwise it looks the last picked player up in
availablePlayers and, when the lookup fails, logs and leaves the state
untouched; on success it drops the last pick, filters the player out of
the picking team roster, re-sorts availablePlayers with the player
appended, decrements the index with a floor at zero, and forces status
back to in_progress. -/
def undoLastPick (state : DraftState) (now : ℕ) : DraftState :=
  if state.picks.length = 0 then state
  else
    match state.picks.getLast? with
    | none => state
    | some lastPick =>
      match state.availablePlayers.find? (fun p => p.id = lastPick.playerId) with
      | none => state
      | some pickedPlayer =>
        let updatedPicks := state.picks.dropLast
        let updatedTeams := state.teams.map (fun team =>
          if team.id = lastPick.teamId then
            { team with roster := team.roster.filter (fun p => p.id ≠ lastPick.playerId) }
          else team)
        let updatedAvailablePlayers :=
          (state.availablePlayers ++ [pickedPlayer]).insertionSort
            (fun a b => a.adp ≤ b.adp)
        { state with
          picks := updatedPicks
          teams := updatedTeams
          availablePlayers := updatedAvailablePlayers
          currentPickIndex := state.currentPickIndex - 1
          status := DraftStatus.inProgress
          updatedAt := now }

/-! ### Psychology module (detectPositionalRun and friends, src/lib/api/sleeper.ts) -/

/-- JavaScript slice(-n): the last n elements (the whole list when it is
shorter). -/
def lastN (n : ℕ) (xs : List α) : List α := xs.drop (xs.length - n)

/-- Resolution of a pick to the position of its player, by looking the
player id up in the available pool, exactly as the tally loop of
detectPositionalRun does. -/
def lookupPos (availablePlayers : List Player) (pick : DraftPick) : Option Position :=
  (availablePlayers.find? (fun p => p.id = pick.playerId)).map (fun p => p.position)

/-- One step of the positionCounts object update: bump the entry of the
position, inserting it at the end on first occurrence (JavaScript objects
keep insertion order of keys). -/
def upsertCount : List (Position × ℕ) → Position → List (Position × ℕ)
  | [], pos => [(pos, 1)]
  | (q, n) :: rest, pos =>
    if q = pos then (q, n + 1) :: rest else (q, n) :: upsertCount rest pos

/-- The positionCounts object built by the tally forEach, in key insertion
order. -/
def buildCounts (positions : List Position) : List (Position × ℕ) :=
  positions.foldl upsertCount []

/-- The Object.entries forEach that selects the plurality position:
strictly larger counts win, so on ties the earlier-inserted key is kept. -/
def pickPlurality (counts : List (Position × ℕ)) : Option Position × ℕ :=
  counts.foldl (fun acc e => if acc.2 < e.2 then (some e.1, e.2) else acc) (none, 0)

/-- detectPositionalRun: tally the last five picks by looked-up position,
take the plurality position, then run the sequence of intensity
assignments in source order, each overwriting the previous one when its
guard holds. -/
def detectPositionalRun (recentPicks : List DraftPick) (availablePlayers : List Player) :
    Option Position × ℕ :=
  if recentPicks.length < 2 then (none, 0)
  else
    let last5 := lastN 5 recentPicks
    let plurality := pickPlurality (buildCounts (last5.filterMap (lookupPos availablePlayers)))
    let maxCount := plurality.2
    match plurality.1 with
    | none => (none, 0)
    | some runPosition =>
      let countLast3 :=
        ((lastN 3 recentPicks).filter
          (fun pick => lookupPos availablePlayers pick = some runPosition)).length
      let countLast4 :=
        ((lastN 4 recentPicks).filter
          (fun pick => lookupPos availablePlayers pick = some runPosition)).length
      let i1 := if 2 ≤ countLast3 then 40 else 0
      let i2 := if 3 ≤ countLast3 then 70 else i1
      let i3 := if 3 ≤ countLast4 then 60 else i2
      let i4 := if 4 ≤ countLast4 then 90 else i3
      let i5 := if 4 ≤ maxCount then 100 else i4
      (some runPosition, i5)

/-- calculatePanicBonus: zero unless the candidate position matches the
detected run position, otherwise Math.round of intensity times panic
factor times 0.8. -/
def calculatePanicBonus (player : Player) (runInfo : Option Position × ℕ)
    (aiPanicFactor : ℚ) : ℤ :=
  if some player.position ≠ runInfo.1 then 0
  else jsRound ((runInfo.2 : ℚ) * aiPanicFactor * (8 / 10))

/-- getInitialTopTierCount: the fixed reference constants per position. -/
def getInitialTopTierCount (position : Position) : ℕ :=
  match position with
  | Position.QB => 12
  | Position.RB => 24
  | Position.WR => 30
  | Position.TE => 10
  | Position.K => 12
  | Position.DEF => 12

/-- calculateScarcityIndex: base scarcity from the fraction of tier-three
or better players left against the fixed initial count plus draft
progress, position multipliers for RB/WR and TE, then
Math.min(100, Math.round(scarcity)). -/
def calculateScarcityIndex (position : Position) (availablePlayers : List Player)
    (totalDrafted : ℕ) : ℤ :=
  let positionPlayers := availablePlayers.filter (fun p => p.position = position)
  let topTier := positionPlayers.filter (fun p => p.tier ≤ 3)
  let initialTopTier := getInitialTopTierCount position
  let percentRemaining : ℚ := (topTier.length : ℚ) / (initialTopTier : ℚ)
  let draftProgress : ℚ := min 1 ((totalDrafted : ℚ) / 180)
  let scarcity : ℚ := (1 - percentRemaining) * 70 + draftProgress * 30
  let adjusted : ℚ :=
    if position = Position.RB ∨ position = Position.WR then scarcity * (12 / 10)
    else if position = Position.TE then scarcity * (13 / 10)
    else scarcity
  min 100 (jsRound adjusted)

/-! ### Decision engine bye-week penalty (src/lib/ai/decision-engine.ts) -/

/-- Lookup in the byeWeekCount map of a team, defaulting to zero as the
source double-pipe does. -/
def byeWeekCountFor (team : Team) (byeWeek : ℕ) : ℕ :=
  ((team.byeWeekCount.find? (fun e => e.1 = byeWeek)).map (fun e => e.2)).getD 0

/-- calculateByeWeekPenalty: zero when the player has no bye week (the
source uses falsiness, and ingested players carry byeWeek zero for
unknown) or the awareness is zero; otherwise the tiered penalty on the
recorded count, scaled by the awareness and rounded. -/
def calculateByeWeekPenalty (team : Team) (player : Player) (byeWeekAwareness : ℚ) : ℤ :=
  if player.byeWeek = 0 ∨ byeWeekAwareness = 0 then 0
  else
    let byeCount := byeWeekCountFor team player.byeWeek
    let penalty : ℚ :=
      if 3 ≤ byeCount then -40
      else if byeCount = 2 then -25
      else if byeCount = 1 then -10
      else 0
    jsRound (penalty * byeWeekAwareness)

/-- The byeScore entry of the scorePlayer breakdown:
Math.round(byeScore times 0.1) where byeScore is the bye-week penalty. -/
def scorePlayerByeScore (team : Team) (player : Player) (byeWeekAwareness : ℚ) : ℤ :=
  jsRound ((calculateByeWeekPenalty team player byeWeekAwareness : ℚ) * (1 / 10))

/-- The runScore entry of the scorePlayer breakdown:
Math.round(runScore times 0.2) where runScore is the panic bonus for the
run detected over the last five picks of the state. -/
def scorePlayerRunScore (player : Player) (draftState : DraftState)
    (availablePlayers : List Player) (aiPanicFactor : ℚ) : ℤ :=
  jsRound ((calculatePanicBonus player
      (detectPositionalRun (lastN 5 draftState.picks) availablePlayers) aiPanicFactor : ℚ)
    * (2 / 10))

/-! ### Need calculator (src/lib/ai/need-calculator.ts) -/

/-- getRosterComposition at one position: the tally the forEach builds is
the count of rostered players at that position. -/
def getRosterComposition (team : Team) (position : Position) : ℕ :=
  team.roster.countP (fun p => p.position = position)

/-- getTargetComposition: dedicated slots plus bench and flex shares, with
Math.floor and Math.ceil as in the source. -/
def getTargetComposition (settings : DraftSettings) (position : Position) : ℕ :=
  let s := settings.rosterSlots
  match position with
  | Position.QB => s.QB + (⌊(s.BENCH : ℚ) * (1 / 10)⌋).toNat
  | Position.RB =>
      s.RB + (⌈(s.FLEX : ℚ) * (1 / 2)⌉).toNat + (⌊(s.BENCH : ℚ) * (35 / 100)⌋).toNat
  | Position.WR =>
      s.WR + (⌈(s.FLEX : ℚ) * (1 / 2)⌉).toNat + (⌊(s.BENCH : ℚ) * (35 / 100)⌋).toNat
  | Position.TE => s.TE + (⌊(s.BENCH : ℚ) * (1 / 10)⌋).toNat
  | Position.K => s.K
  | Position.DEF => s.DEF

/-- calculateTeamNeeds at one position: the base table on current versus
target, the early-round damping branch, the late-round K/DEF override
branch, and the final Math.round. -/
def calculateTeamNeeds (team : Team) (settings : DraftSettings) (currentRound : ℕ)
    (position : Position) : ℤ :=
  let current := getRosterComposition team position
  let target := getTargetComposition settings position
  let need : ℚ :=
    if current = 0 then 100
    else if current < target then 80 - ((current : ℚ) / (target : ℚ)) * 30
    else if current = target then 40
    else max 0 (30 - ((current : ℚ) - (target : ℚ)) * 10)
  let adjusted : ℚ :=
    if currentRound ≤ 5 then
      if position = Position.K ∨ position = Position.DEF then need * (3 / 10)
      else if position = Position.QB then need * (7 / 10)
      else need
    else if 12 ≤ currentRound then
      if (position = Position.K ∨ position = Position.DEF) ∧ current = 0 then 100 else need
    else need
  jsRound adjusted

/-! ### Specification-side formulations used for refinement comparisons -/

/-- Number of tier-three-or-better players left at a position, the
topTierRemaining quantity named by the specification. -/
def topTierRemaining (position : Position) (availablePlayers : List Player) : ℕ :=
  ((availablePlayers.filter (fun p => p.position = position)).filter
    (fun p => p.tier ≤ 3)).length

/-- Scarcity value exactly as the specification words it: one minus
topTierRemaining over the fixed initial count, times 70, plus
min(1, totalDrafted/180) times 30, then times 1.2 for RB/WR and 1.3 for
TE. -/
def specScarcityValue (position : Position) (availablePlayers : List Player)
    (totalDrafted : ℕ) : ℚ :=
  let base := (1 - (topTierRemaining position availablePlayers : ℚ)
      / (getInitialTopTierCount position : ℚ)) * 70
    + min 1 ((totalDrafted : ℚ) / 180) * 30
  if position = Position.RB ∨ position = Position.WR then base * (12 / 10)
  else if position = Position.TE then base * (13 / 10)
  else base

/-- Base need as the specification words it: 100 at zero rostered,
80 minus (rostered/target) times 30 under target, 40 at target,
max(0, 30 minus 10 times the excess) over target. -/
def specNeedBase (rostered target : ℕ) : ℚ :=
  if rostered = 0 then 100
  else if rostered < target then 80 - ((rostered : ℚ) / (target : ℚ)) * 30
  else if rostered = target then 40
  else max 0 (30 - 10 * ((rostered : ℚ) - (target : ℚ)))

/-- Per-position need as the specification words it: the base table, then
the early-round damping applied when the round is at most 5, then the
late-round K/DEF override applied when the round is at least 12, each
stated as an independent step, with the final rounding. -/
def specTeamNeed (team : Team) (settings : DraftSettings) (currentRound : ℕ)
    (position : Position) : ℤ :=
  let rostered := getRosterComposition team position
  let target := getTargetComposition settings position
  let v1 := specNeedBase rostered target
  let v2 :=
    if currentRound ≤ 5 then
      if position = Position.K ∨ position = Position.DEF then v1 * (3 / 10)
      else if position = Position.QB then v1 * (7 / 10)
      else v1
    else v1
  let v3 :=
    if 12 ≤ currentRound ∧ (position = Position.K ∨ position = Position.DEF) ∧ rostered = 0
    then 100 else v2
  jsRound v3

/-! ### Reachable states and the claimed state invariant -/

/-- States reachable in the draft state machine: the output of
initializeDraft for a user position between 1 and numTeams, closed under
successful executePick calls. -/
inductive Reachable : DraftState → Prop where
  | init (userTeamName : String) (userDraftPosition : ℕ) (settings : DraftSettings)
      (aiProfileIds : List String) (availablePlayers : List Player)
      (draftId : String) (now : ℕ)
      (h1 : 1 ≤ userDraftPosition) (h2 : userDraftPosition ≤ settings.numTeams) :
      Reachable (initializeDraft userTeamName userDraftPosition settings aiProfileIds
        availablePlayers draftId now)
  | step (s : DraftState) (teamId playerId : String) (now : ℕ) (s2 : DraftState)
      (h : Reachable s)
      (hp : executePick s teamId playerId now =
        { success := true, error := none, updatedState := some s2 }) :
      Reachable s2

/-- The inductive invariant maintained by the state machine.  Beyond the
four claimed properties it carries the auxiliary facts the induction
needs: the pick count never exceeds the total, team ids are distinct,
rosters hold only picked players, bye-week tallies stay empty, and there
is at least one team. -/
structure DraftInv (s : DraftState) : Prop where
  idx_eq : s.currentPickIndex = s.picks.length
  picks_le : s.picks.length ≤ s.settings.numTeams * s.settings.numRounds
  status_iff : s.status = DraftStatus.completed ↔
    (s.picks.length = s.settings.numTeams * s.settings.numRounds ∧
      1 ≤ s.settings.numTeams * s.settings.numRounds)
  picked_absent : ∀ pk ∈ s.picks, ∀ pl ∈ s.availablePlayers, pl.id ≠ pk.playerId
  picked_one_roster : ∀ pk ∈ s.picks,
    s.teams.countP (fun t => t.roster.any (fun q => q.id = pk.playerId)) = 1
  order_len : s.draftOrder.length = s.settings.numTeams * s.settings.numRounds
  ids_nodup : (s.teams.map (fun t => t.id)).Nodup
  roster_from_picks : ∀ t ∈ s.teams, ∀ q ∈ t.roster, ∃ pk ∈ s.picks, pk.playerId = q.id
  bye_empty : ∀ t ∈ s.teams, t.byeWeekCount = []
  teams_ge : 1 ≤ s.settings.numTeams

/-- The conjunction claimed as the DraftState invariant: index equals pick
count, completion exactly at the full pick total, every picked player gone
from the pool and on exactly one roster, and the precomputed order has the
full length. -/
def draftInvariantProps (s : DraftState) : Prop :=
  s.currentPickIndex = s.picks.length ∧
  (s.status = DraftStatus.completed ↔
    s.picks.length = s.settings.numTeams * s.settings.numRounds) ∧
  (∀ pk ∈ s.picks, (∀ pl ∈ s.availablePlayers, pl.id ≠ pk.playerId) ∧
    s.teams.countP (fun t => t.roster.any (fun q => q.id = pk.playerId)) = 1) ∧
  s.draftOrder.length = s.settings.numTeams * s.settings.numRounds

/-! ### Concrete data used by witnesses and counterexamples -/

/-- Standard roster slots used by the concrete examples. -/
def exSlots : RosterSlots :=
  { QB := 1, RB := 2, WR := 2, TE := 1, FLEX := 1, K := 1, DEF := 1, BENCH := 6 }

/-- One-team one-round settings. -/
def exSettings : DraftSettings :=
  { numTeams := 1, numRounds := 1, pickTimeLimit := 90,
    scoringType := ScoringType.ppr, rosterSlots := exSlots }

/-- One-team two-round settings. -/
def exSettings2 : DraftSettings := { exSettings with numRounds := 2 }

/-- Degenerate zero-round settings. -/
def exSettings0 : DraftSettings := { exSettings with numRounds := 0 }

/-- A concrete running back. -/
def exPlayer : Player :=
  { id := "p1", name := "Back One", position := Position.RB, team := "SF",
    byeWeek := 5, adp := 10, tier := 1 }

/-- A second concrete player. -/
def exPlayer2 : Player :=
  { id := "p2", name := "Back Two", position := Position.WR, team := "KC",
    byeWeek := 6, adp := 20, tier := 2 }

/-- A one-team one-round draft over a single player. -/
def exState0 : DraftState :=
  initializeDraft "User" 1 exSettings [] [exPlayer] "draft" 0

/-- The state after the only pick of exState0. -/
def exState1 : DraftState :=
  ((executePick exState0 "team-user" "p1" 1).updatedState).getD exState0

/-- A one-team two-round draft over two players. -/
def exStateA : DraftState :=
  initializeDraft "User" 1 exSettings2 [] [exPlayer, exPlayer2] "draft" 0

/-- exStateA after its first pick. -/
def exStateB : DraftState :=
  ((executePick exStateA "team-user" "p1" 1).updatedState).getD exStateA

/-- exStateA after both picks. -/
def exStateC : DraftState :=
  ((executePick exStateB "team-user" "p2" 2).updatedState).getD exStateB

/-- The zero-round draft state refuting the completion biconditional. -/
def exStateR0 : DraftState :=
  initializeDraft "User" 1 exSettings0 [] [] "draft" 0

/-- A player of a given position for the run-detection examples. -/
def runPlayer (i : String) (pos : Position) : Player :=
  { id := i, name := i, position := pos, team := "T", byeWeek := 4, adp := 1, tier := 1 }

/-- A pick of a given player id for the run-detection examples. -/
def runPick (i : String) : DraftPick :=
  { id := i, draftId := "d", teamId := "t", playerId := i, pickNumber := 1, round := 1,
    pickInRound := 1, timestamp := 0, isAIPick := true }

/-- Pool for the run-detection counterexample: one QB, one WR, three RB. -/
def exRunPool : List Player :=
  [runPlayer "a" Position.QB, runPlayer "b" Position.WR, runPlayer "c" Position.RB,
   runPlayer "d" Position.RB, runPlayer "e" Position.RB]

/-- Five picks whose last three are the RB run. -/
def exRunPicks : List DraftPick :=
  [runPick "a", runPick "b", runPick "c", runPick "d", runPick "e"]

/-- Pool for the run-detection witness: one K, one DEF, three TE. -/
def exRunPoolW : List Player :=
  [runPlayer "a" Position.K, runPlayer "b" Position.DEF, runPlayer "c" Position.TE,
   runPlayer "d" Position.TE, runPlayer "e" Position.TE]

/-- A pool holding thirteen top-tier quarterbacks, one more than the fixed
initial top-tier count for QB. -/
def exQBPool : List Player :=
  List.replicate 13 (runPlayer "q" Position.QB)

/-- A team whose bye-week map records one rostered player on week 5. -/
def exByeTeam1 : Team :=
  { id := "t1", name := "Bye One", isUser := false, roster := [],
    needs := mkInitialNeeds, byeWeekCount := [(5, 1)], draftPosition := 1 }

/-- A team whose bye-week map records two rostered players on week 5. -/
def exByeTeam2 : Team :=
  { id := "t2", name := "Bye Two", isUser := false, roster := [],
    needs := mkInitialNeeds, byeWeekCount := [(5, 2)], draftPosition := 2 }

/-- A fallback team value for list lookups in witnesses. -/
def exFallbackTeam : Team :=
  { id := "zz", name := "zz", isUser := false, roster := [],
    needs := mkInitialNeeds, byeWeekCount := [], draftPosition := 0 }

/-- The first team of exState1, the picking team of the witness states. -/
def exTeam1 : Team := exState1.teams.headD exFallbackTeam

/-- Four teams with ids 1..4 in ascending draft position, for the snake
order example. -/
def exFourTeams : List Team :=
  [{ id := "1", name := "T1", isUser := true, roster := [], needs := mkInitialNeeds,
     byeWeekCount := [], draftPosition := 1 },
   { id := "2", name := "T2", isUser := false, roster := [], needs := mkInitialNeeds,
     byeWeekCount := [], draftPosition := 2 },
   { id := "3", name := "T3", isUser := false, roster := [], needs := mkInitialNeeds,
     byeWeekCount := [], draftPosition := 3 },
   { id := "4", name := "T4", isUser := false, roster := [], needs := mkInitialNeeds,
     byeWeekCount := [], draftPosition := 4 }]

/-! ### Theorems -/

/-- Rounding a rational that is exactly zero gives zero. -/
theorem jsRound_zero : jsRound 0 = 0 := by
  unfold jsRound
  norm_num

/-- Rounding is nonnegative on nonnegative input. -/
theorem jsRound_nonneg (q : ℚ) (h : 0 ≤ q) : 0 ≤ jsRound q := by
  unfold jsRound
  have : (0 : ℚ) ≤ q + 1 / 2 := by linarith
  exact Int.floor_nonneg.mpr this

/-- Characterisation of jsRound by the two half-open bounds. -/
theorem jsRound_eq (q : ℚ) (z : ℤ) (h1 : (z : ℚ) ≤ q + 1 / 2) (h2 : q + 1 / 2 < z + 1) :
    jsRound q = z := by
  unfold jsRound
  exact Int.floor_eq_iff.mpr ⟨h1, h2⟩

/-- The scarcity index is the clamped rounding of the specification
formula, by unfolding both sides. -/
theorem scarcityIndex_eq_min_spec (position : Position) (availablePlayers : List Player)
    (totalDrafted : ℕ) :
    calculateScarcityIndex position availablePlayers totalDrafted =
      min 100 (jsRound (specScarcityValue position availablePlayers totalDrafted)) := rfl

/-- C2: whenever validatePick reports an error, executePick returns a
failure carrying that same error and no updated state; being a pure
transition on snapshots, the input state with its picks, pool and rosters
is untouched. -/
theorem c2_invalid_pick_no_mutation (s : DraftState) (teamId playerId : String)
    (now : ℕ) (e : PickError) (h : validatePick s teamId playerId = some e) :
    executePick s teamId playerId now =
      { success := false, error := some e, updatedState := none } := by
  unfold executePick
  rw [h]

/-- Witness for c2_invalid_pick_no_mutation: in the one-team example it is
not the turn of team-x, and executePick fails with that same error. -/
theorem c2_witness :
    validatePick exState0 "team-x" "p1" = some PickError.wrongTurn ∧
    executePick exState0 "team-x" "p1" 7 =
      { success := false, error := some PickError.wrongTurn, updatedState := none } :=
  ⟨by decide, c2_invalid_pick_no_mutation exState0 "team-x" "p1" 7 PickError.wrongTurn
    (by decide)⟩

/-- C7 counterexample: with thirteen top-tier quarterbacks available
against the fixed initial count of twelve, calculateScarcityIndex returns
minus six, refuting the claim that the result is never negative. -/
theorem c7_counterexample :
    calculateScarcityIndex Position.QB exQBPool 0 = -6 ∧
    calculateScarcityIndex Position.QB exQBPool 0 < 0 ∧
    topTierRemaining Position.QB exQBPool = 13 ∧
    getInitialTopTierCount Position.QB = 12 := by
  have h13 : topTierRemaining Position.QB exQBPool = 13 := by decide
  have hspec : specScarcityValue Position.QB exQBPool 0 = -35 / 6 := by
    unfold specScarcityValue
    rw [h13, if_neg (by decide : ¬(Position.QB = Position.RB ∨ Position.QB = Position.WR)),
      if_neg (by decide : ¬Position.QB = Position.TE)]
    norm_num [getInitialTopTierCount]
  have hval : calculateScarcityIndex Position.QB exQBPool 0 = -6 := by
    rw [scarcityIndex_eq_min_spec, hspec, jsRound_eq (-35 / 6) (-6) (by norm_num) (by norm_num)]
    norm_num
  exact ⟨hval, by rw [hval]; norm_num, h13, rfl⟩

/-- C7 amended: calculateScarcityIndex is Math.min of 100 and the rounded
specification formula, hence never exceeds 100, and it is nonnegative
whenever no more top-tier players remain than the fixed initial count; it
can drop below zero only in the opposite case. -/
theorem c7_scarcity_range (position : Position) (availablePlayers : List Player)
    (totalDrafted : ℕ) :
    calculateScarcityIndex position availablePlayers totalDrafted =
      min 100 (jsRound (specScarcityValue position availablePlayers totalDrafted)) ∧
    calculateScarcityIndex position availablePlayers totalDrafted ≤ 100 ∧
    (topTierRemaining position availablePlayers ≤ getInitialTopTierCount position →
      0 ≤ calculateScarcityIndex position availablePlayers totalDrafted) := by
  have heq : calculateScarcityIndex position availablePlayers totalDrafted =
      min 100 (jsRound (specScarcityValue position availablePlayers totalDrafted)) := rfl
  refine ⟨heq, ?_, ?_⟩
  · rw [heq]; exact min_le_left _ _
  · intro hle
    rw [heq]
    have hpos : (0 : ℚ) < (getInitialTopTierCount position : ℚ) := by
      cases position <;> norm_num [getInitialTopTierCount]
    have hfrac : ((topTierRemaining position availablePlayers : ℚ)
        / (getInitialTopTierCount position : ℚ)) ≤ 1 := by
      rw [div_le_one hpos]
      exact_mod_cast hle
    have hdp : (0 : ℚ) ≤ min 1 ((totalDrafted : ℚ) / 180) := by positivity
    have hbase : (0 : ℚ) ≤ (1 - (topTierRemaining position availablePlayers : ℚ)
        / (getInitialTopTierCount position : ℚ)) * 70
        + min 1 ((totalDrafted : ℚ) / 180) * 30 := by nlinarith
    have hval : (0 : ℚ) ≤ specScarcityValue position availablePlayers totalDrafted := by
      unfold specScarcityValue
      split_ifs <;> nlinarith
    exact le_min (by norm_num) (jsRound_nonneg _ hval)

/-- Witness for c7_scarcity_range: on the empty pool every hypothesis is
concrete and the index is within bounds. -/
theorem c7_witness :
    topTierRemaining Position.QB [] ≤ getInitialTopTierCount Position.QB ∧
    calculateScarcityIndex Position.QB [] 0 ≤ 100 ∧
    0 ≤ calculateScarcityIndex Position.QB [] 0 :=
  ⟨by decide, (c7_scarcity_range Position.QB [] 0).2.1,
    (c7_scarcity_range Position.QB [] 0).2.2 (by decide)⟩

/-- C8 counterexample: with exactly one already-rostered player recorded
on the candidate bye week and full awareness, the penalty is minus ten,
refuting the claimed value of zero for that case. -/
theorem c8_counterexample :
    calculateByeWeekPenalty exByeTeam1 exPlayer 1 = -10 ∧
    byeWeekCountFor exByeTeam1 exPlayer.byeWeek = 1 ∧
    exPlayer.byeWeek ≠ 0 := by
  have hcount : byeWeekCountFor exByeTeam1 exPlayer.byeWeek = 1 := by decide
  refine ⟨?_, hcount, by decide⟩
  simp only [calculateByeWeekPenalty, hcount]
  rw [if_neg (by norm_num [exPlayer])]
  norm_num
  exact jsRound_eq (-10) (-10) (by norm_num) (by norm_num)

/-- C8 amended: the penalty table is keyed one lower than claimed — with k
already-rostered players recorded on the candidate bye week the penalty is
0, minus 10, minus 25, minus 40 for k equal to 0, 1, 2, at least 3, each
times the awareness and rounded; and it is zero outright when the player
has no bye week or the awareness is zero. -/
theorem c8_penalty_table (team : Team) (player : Player) (aw : ℚ) :
    ((player.byeWeek = 0 ∨ aw = 0) → calculateByeWeekPenalty team player aw = 0) ∧
    (player.byeWeek ≠ 0 → aw ≠ 0 →
      ((byeWeekCountFor team player.byeWeek = 0 →
          calculateByeWeekPenalty team player aw = 0) ∧
       (byeWeekCountFor team player.byeWeek = 1 →
          calculateByeWeekPenalty team player aw = jsRound (-10 * aw)) ∧
       (byeWeekCountFor team player.byeWeek = 2 →
          calculateByeWeekPenalty team player aw = jsRound (-25 * aw)) ∧
       (3 ≤ byeWeekCountFor team player.byeWeek →
          calculateByeWeekPenalty team player aw = jsRound (-40 * aw)))) := by
  constructor
  · intro h
    unfold calculateByeWeekPenalty
    rw [if_pos h]
  · intro h1 h2
    have hg : ¬ (player.byeWeek = 0 ∨ aw = 0) := by tauto
    refine ⟨?_, ?_, ?_, ?_⟩ <;> intro hc <;>
        simp only [calculateByeWeekPenalty, if_neg hg, hc]
    · norm_num
      exact jsRound_zero
    · norm_num
    · norm_num
    · simp only [if_true]

/-- Witness for c8_penalty_table: the two-on-bye team at half awareness
lands in the minus-25 row. -/
theorem c8_witness :
    calculateByeWeekPenalty exByeTeam2 exPlayer (1 / 2) = jsRound (-25 * (1 / 2)) ∧
    jsRound (-25 * ((1 : ℚ) / 2)) = -12 :=
  ⟨((c8_penalty_table exByeTeam2 exPlayer (1 / 2)).2 (by decide) (by norm_num)).2.2.1
      (by decide),
    jsRound_eq (-25 * ((1 : ℚ) / 2)) (-12) (by norm_num) (by norm_num)⟩

/-- C10: calculateTeamNeeds computes exactly the specification formula —
the four-row base table on rostered count against the target composition,
the early-round damping for rounds at most five, the late-round K/DEF
override for rounds at least twelve, and rounding to the nearest
integer. -/
theorem c10_team_needs_formula (team : Team) (settings : DraftSettings)
    (currentRound : ℕ) (position : Position) :
    calculateTeamNeeds team settings currentRound position =
      specTeamNeed team settings currentRound position := by
  unfold calculateTeamNeeds specTeamNeed specNeedBase
  by_cases h5 : currentRound ≤ 5
  · have h12 : ¬ 12 ≤ currentRound := by omega
    simp only [h5, if_true, h12, false_and, if_false]
    congr 1
    ring_nf
  · by_cases h12 : 12 ≤ currentRound
    · simp only [h5, if_false, h12, true_and, if_true]
      by_cases hkd : (position = Position.K ∨ position = Position.DEF) ∧
          getRosterComposition team position = 0
      · rcases hkd with ⟨hpos, hzero⟩
        simp only [hpos, hzero, and_self, if_true, eq_self_iff_true, true_and]
      · rw [if_neg hkd, if_neg hkd]
        congr 1
        ring_nf
    · simp only [h5, if_false, h12, false_and]
      congr 1
      ring_nf

/-- Slicing a flattened list of constant-length blocks recovers the block. -/
theorem flatten_slice {α : Type} (N : ℕ) :
    ∀ (L : List (List α)) (r : ℕ) (hr : r < L.length), (∀ l ∈ L, l.length = N) →
      (L.flatten.drop (r * N)).take N = L.get ⟨r, hr⟩ := by
  intro L
  induction L with
  | nil => intro r hr; simp at hr
  | cons x L ih =>
    intro r hr hlen
    cases r with
    | zero =>
      have hx : x.length = N := hlen x (by simp)
      simp only [List.flatten_cons, Nat.zero_mul, List.drop_zero, List.get]
      rw [← hx]
      exact List.take_left x L.flatten
    | succ r =>
      have hx : x.length = N := hlen x (by simp)
      simp only [List.flatten_cons, List.get]
      have hmul : (r + 1) * N = x.length + r * N := by rw [hx]; ring
      rw [hmul, List.drop_append]
      exact ih r (by simpa using hr) (fun l hl => hlen l (by simp [hl]))

/-- The snake order has one block of team ids per round. -/
theorem snakeOrder_length (teams : List Team) (numRounds : ℕ) :
    (generateSnakeDraftOrder teams numRounds).length = teams.length * numRounds := by
  induction numRounds with
  | zero => simp [generateSnakeDraftOrder]
  | succ R ih =>
    unfold generateSnakeDraftOrder at ih ⊢
    dsimp only at ih ⊢
    rw [List.range_succ, List.map_append, List.flatten_append, List.length_append, ih]
    have : (List.map (fun round =>
        if round % 2 = 0 then teams.map (fun t => t.id)
        else (teams.map (fun t => t.id)).reverse) [R]).flatten.length = teams.length := by
      simp only [List.map_cons, List.map_nil, List.flatten_cons, List.flatten_nil,
        List.append_nil]
      split <;> simp
    rw [this]
    ring

/-- C5: for teams listed in ascending draft position, the snake order has
length numTeams times numRounds, round r lists the team ids forward when r
is even and reversed when r is odd, and the four-team three-round example
yields 1,2,3,4 then 4,3,2,1 then 1,2,3,4. -/
theorem c5_snake_order (teams : List Team) (numRounds : ℕ)
    (hsorted : teams.Pairwise (fun a b => a.draftPosition ≤ b.draftPosition)) :
    (generateSnakeDraftOrder teams numRounds).length = teams.length * numRounds ∧
    (∀ r, r < numRounds →
      ((generateSnakeDraftOrder teams numRounds).drop (r * teams.length)).take teams.length =
        if r % 2 = 0 then teams.map (fun t => t.id)
        else (teams.map (fun t => t.id)).reverse) ∧
    generateSnakeDraftOrder exFourTeams 3 =
      ["1", "2", "3", "4", "4", "3", "2", "1", "1", "2", "3", "4"] := by
  refine ⟨snakeOrder_length teams numRounds, ?_, by decide⟩
  intro r hr
  unfold generateSnakeDraftOrder
  have hr2 : r < ((List.range numRounds).map (fun round =>
      if round % 2 = 0 then teams.map (fun t => t.id)
      else (teams.map (fun t => t.id)).reverse)).length := by
    simpa using hr
  have hlen : ∀ l ∈ (List.range numRounds).map (fun round =>
      if round % 2 = 0 then teams.map (fun t => t.id)
      else (teams.map (fun t => t.id)).reverse), l.length = teams.length := by
    intro l hl
    simp only [List.mem_map] at hl
    obtain ⟨r2, _, rfl⟩ := hl
    split <;> simp
  rw [flatten_slice teams.length _ r hr2 hlen]
  simp [List.get_eq_getElem]

/-- Witness for c5_snake_order: the four concrete teams are in ascending
draft position and get a twelve-entry order. -/
theorem c5_witness :
    exFourTeams.Pairwise (fun a b => a.draftPosition ≤ b.draftPosition) ∧
    (generateSnakeDraftOrder exFourTeams 3).length = exFourTeams.length * 3 :=
  ⟨by decide, (c5_snake_order exFourTeams 3 (by decide)).1⟩

/-- C6 counterexample: in a five-pick window resolving to QB, WR, RB, RB,
RB — the last three picks all RB, only three of the last four RB — the
returned intensity is 60, not the claimed 70: the later three-of-last-four
assignment overwrites the earlier three-of-last-three one. -/
theorem c6_counterexample :
    detectPositionalRun exRunPicks exRunPool = (some Position.RB, 60) ∧
    exRunPicks.map (lookupPos exRunPool) =
      [some Position.QB, some Position.WR, some Position.RB, some Position.RB,
        some Position.RB] :=
  ⟨by decide, by decide⟩

/-- C6 amended: whenever the five-pick window resolves to positions a, b,
p, p, p with a and b different from p — so the last three picks share the
plurality position while fewer than four of the last four, and fewer than
four of all five, share it — detectPositionalRun reports intensity 60,
because the three-of-last-four assignment runs after the
three-of-last-three assignment and overwrites its 70. -/
theorem c6_intensity_sixty (pool : List Player) (k1 k2 k3 k4 k5 : DraftPick)
    (a b p : Position)
    (h1 : lookupPos pool k1 = some a) (h2 : lookupPos pool k2 = some b)
    (h3 : lookupPos pool k3 = some p) (h4 : lookupPos pool k4 = some p)
    (h5 : lookupPos pool k5 = some p)
    (ha : a ≠ p) (hb : b ≠ p) :
    detectPositionalRun [k1, k2, k3, k4, k5] pool = (some p, 60) := by
  have hplur := (by decide : ∀ (x y z : Position), x ≠ z → y ≠ z →
    pickPlurality (buildCounts [x, y, z, z, z]) = (some z, 3)) a b p ha hb
  have hbp : (some b = some p) = False := by simp [hb]
  unfold detectPositionalRun
  simp only [List.length_cons, List.length_nil, lastN, Nat.reduceAdd, Nat.reduceSub,
    Nat.reduceLeDiff, List.drop_zero, List.drop_succ_cons]
  norm_num
  simp only [List.filterMap_cons, h1, h2, h3, h4, h5, List.filterMap_nil, hplur,
    List.filter_cons, List.filter_nil, hbp, decide_eq_true_eq, if_true, if_false,
    List.length_cons, List.length_nil]
  norm_num

/-- Witness for c6_intensity_sixty: the K, DEF, TE, TE, TE window lands on
intensity 60 for TE. -/
theorem c6_witness :
    detectPositionalRun
      [runPick "a", runPick "b", runPick "c", runPick "d", runPick "e"] exRunPoolW =
      (some Position.TE, 60) :=
  c6_intensity_sixty exRunPoolW (runPick "a") (runPick "b") (runPick "c") (runPick "d")
    (runPick "e") Position.K Position.DEF Position.TE (by decide) (by decide) (by decide)
    (by decide) (by decide) (by decide) (by decide)

/-- C3 evaluated at the failing input: in the one-team one-round draft the
only pick succeeds, and undoing it leaves the post-pick state completely
unchanged — the undone pick remains, the roster keeps the player — because
undoLastPick looks the picked player up in availablePlayers, from which
executePick has just removed it. -/
theorem c3_undo_after_pick_is_noop :
    executePick exState0 "team-user" "p1" 1 =
      { success := true, error := none, updatedState := some exState1 } ∧
    undoLastPick exState1 2 = exState1 ∧
    exState1.picks.length = 1 ∧
    exState0.picks.length = 0 ∧
    exState1.teams.map (fun t => t.roster.length) = [1] ∧
    exState1.availablePlayers.find? (fun q => q.id = "p1") = none :=
  ⟨by decide, by decide, by decide, by decide, by decide, by decide⟩

/-- C1 counterexample: with zero rounds the initial state is in_progress
while picks.length already equals numTeams times numRounds, refuting the
claimed biconditional for completion on reachable states. -/
theorem c1_counterexample :
    Reachable exStateR0 ∧
    exStateR0.status = DraftStatus.inProgress ∧
    exStateR0.picks.length = exStateR0.settings.numTeams * exStateR0.settings.numRounds ∧
    exStateR0.status ≠ DraftStatus.completed :=
  ⟨Reachable.init "User" 1 exSettings0 [] [] "draft" 0 (by decide) (by decide),
    by decide, by decide, by decide⟩

/-- The ten digit characters are pairwise distinct. -/
theorem digitChar_injOn : ∀ (d e : Fin 10), digitChar d.val = digitChar e.val → d = e := by
  decide

/-- No digit character is the letter u (code 117). -/
theorem digitChar_ne_u : ∀ (d : Fin 10), digitChar d.val ≠ Char.ofNat 117 := by
  decide

/-- Mapping digitChar over lists of digits below ten is injective. -/
theorem map_digitChar_inj : ∀ (l1 l2 : List ℕ), (∀ d ∈ l1, d < 10) → (∀ d ∈ l2, d < 10) →
    l1.map digitChar = l2.map digitChar → l1 = l2 := by
  intro l1
  induction l1 with
  | nil =>
    intro l2 _ _ h
    cases l2 with
    | nil => rfl
    | cons y ys => simp at h
  | cons x xs ih =>
    intro l2 hb1 hb2 h
    cases l2 with
    | nil => simp at h
    | cons y ys =>
      simp only [List.map_cons, List.cons.injEq] at h
      have hx : x < 10 := hb1 x (by simp)
      have hy : y < 10 := hb2 y (by simp)
      have hxy : x = y := congrArg Fin.val (digitChar_injOn ⟨x, hx⟩ ⟨y, hy⟩ h.1)
      rw [hxy, ih ys (fun d hd => hb1 d (by simp [hd])) (fun d hd => hb2 d (by simp [hd])) h.2]

/-- decimalString is injective: distinct numbers print differently. -/
theorem decimalString_inj : ∀ m n : ℕ, decimalString m = decimalString n → m = n := by
  have key : ∀ n : ℕ, n ≠ 0 →
      ((Nat.digits 10 n).map digitChar).reverse = [Char.ofNat 48] → False := by
    intro n hn h
    have h2 : (Nat.digits 10 n).map digitChar = [Char.ofNat 48] := by
      have := congrArg List.reverse h
      simpa using this
    cases hd : Nat.digits 10 n with
    | nil => rw [hd] at h2; simp at h2
    | cons d ds =>
      rw [hd] at h2
      simp only [List.map_cons, List.cons.injEq] at h2
      have hds : ds = [] := by
        have := h2.2
        cases ds with
        | nil => rfl
        | cons a l => simp at this
      have hdlt : d < 10 := Nat.digits_lt_base' (by rw [hd]; simp)
      have hd0 : d = 0 := by
        have := digitChar_injOn ⟨d, hdlt⟩ ⟨0, by norm_num⟩ (by simpa using h2.1)
        simpa using congrArg Fin.val this
      have : n = 0 := by
        have hofd := Nat.ofDigits_digits 10 n
        rw [hd, hds, hd0] at hofd
        simpa using hofd.symm
      exact hn this
  intro m n h
  unfold decimalString at h
  by_cases hm : m = 0 <;> by_cases hn : n = 0
  · rw [hm, hn]
  · rw [if_pos hm, if_neg hn] at h
    have hdata : [Char.ofNat 48] = ((Nat.digits 10 n).map digitChar).reverse :=
      congrArg String.data h
    exact (key n hn hdata.symm).elim
  · rw [if_neg hm, if_pos hn] at h
    have hdata : ((Nat.digits 10 m).map digitChar).reverse = [Char.ofNat 48] :=
      congrArg String.data h
    exact (key m hm hdata).elim
  · rw [if_neg hm, if_neg hn] at h
    have hrev : ((Nat.digits 10 m).map digitChar).reverse =
        ((Nat.digits 10 n).map digitChar).reverse := congrArg String.data h
    have hmap : (Nat.digits 10 m).map digitChar = (Nat.digits 10 n).map digitChar := by
      have := congrArg List.reverse hrev
      simpa using this
    have hdig : Nat.digits 10 m = Nat.digits 10 n :=
      map_digitChar_inj _ _ (fun d hd => Nat.digits_lt_base' hd)
        (fun d hd => Nat.digits_lt_base' hd) hmap
    have := congrArg (Nat.ofDigits 10) hdig
    rwa [Nat.ofDigits_digits, Nat.ofDigits_digits] at this

/-- The letter u never occurs in a decimal string. -/
theorem decimalString_no_u (n : ℕ) : Char.ofNat 117 ∉ (decimalString n).data := by
  unfold decimalString
  split
  · show Char.ofNat 117 ∉ [Char.ofNat 48]
    decide
  · show Char.ofNat 117 ∉ ((Nat.digits 10 n).map digitChar).reverse
    intro hmem
    rw [List.mem_reverse] at hmem
    obtain ⟨d, hd, hchar⟩ := List.mem_map.mp hmem
    exact digitChar_ne_u ⟨d, Nat.digits_lt_base' hd⟩ hchar

/-- Appending to a fixed prefix is injective on strings. -/
theorem string_append_right_inj (pre s1 s2 : String) (h : pre ++ s1 = pre ++ s2) :
    s1 = s2 := by
  have hdata : pre.data ++ s1.data = pre.data ++ s2.data := by
    have : (pre ++ s1).data = (pre ++ s2).data := by rw [h]
    simpa using this
  exact String.ext (List.append_cancel_left hdata)

/-- An AI team id never collides with the user team id. -/
theorem team_ai_id_ne_user (i : ℕ) : "team-" ++ decimalString i ≠ "team-user" := by
  intro h
  have h2 : "team-" ++ decimalString i = "team-" ++ "user" := by
    rw [h]; rfl
  have h3 : decimalString i = "user" := string_append_right_inj _ _ _ h2
  have h4 : Char.ofNat 117 ∈ (decimalString i).data := by
    rw [h3]; decide
  exact decimalString_no_u i h4

/-- AI team ids are distinct across distinct positions. -/
theorem team_ai_id_inj : Function.Injective (fun i => "team-" ++ decimalString i) := by
  intro i j h
  exact decimalString_inj i j (string_append_right_inj _ _ _ h)

/-- Removing one occurrence from a duplicate-free list by filtering
shortens it by exactly one. -/
theorem filter_ne_length (a : ℕ) :
    ∀ (l : List ℕ), l.Nodup → a ∈ l → (l.filter (fun i => i ≠ a)).length = l.length - 1 := by
  intro l
  induction l with
  | nil => intro _ ha; simp at ha
  | cons x xs ih =>
    intro hnd ha
    rw [List.nodup_cons] at hnd
    by_cases hx : x = a
    · subst hx
      have hself : xs.filter (fun i => i ≠ x) = xs :=
        List.filter_eq_self.mpr (fun b hb => by
          simp only [ne_eq, decide_eq_true_eq]
          exact fun hbx => hnd.1 (hbx ▸ hb))
      have hfc : (x :: xs).filter (fun i => i ≠ x) = xs.filter (fun i => i ≠ x) := by
        simp [List.filter_cons]
      rw [hfc, hself, List.length_cons]
      omega
    · have ha2 : a ∈ xs := by
        rcases List.mem_cons.mp ha with h | h
        · exact absurd h.symm hx
        · exact h
      have hne : xs.length ≥ 1 := List.length_pos.mpr (List.ne_nil_of_mem ha2)
      have hfc : (x :: xs).filter (fun i => i ≠ a) = x :: xs.filter (fun i => i ≠ a) := by
        simp [List.filter_cons, hx]
      rw [hfc, List.length_cons, ih hnd.2 ha2, List.length_cons]
      omega

/-- countP respects pointwise equality on members. -/
theorem countP_congr_mem {α : Type} (p q : α → Bool) :
    ∀ (l : List α), (∀ a ∈ l, p a = q a) → l.countP p = l.countP q := by
  intro l
  induction l with
  | nil => intro _; rfl
  | cons x xs ih =>
    intro h
    rw [List.countP_cons, List.countP_cons, h x (by simp),
      ih (fun a ha => h a (by simp [ha]))]

/-- A duplicate-free id list makes the id predicate count exactly one. -/
theorem countP_id_eq_one (tid : String) :
    ∀ (teams : List Team), (teams.map (fun t => t.id)).Nodup →
      (∃ t ∈ teams, t.id = tid) → teams.countP (fun t => t.id = tid) = 1 := by
  intro teams
  induction teams with
  | nil => intro _ hmem; simp at hmem
  | cons t ts ih =>
    intro hnd hmem
    rw [List.map_cons, List.nodup_cons] at hnd
    by_cases ht : t.id = tid
    · have hzero : ts.countP (fun t0 => t0.id = tid) = 0 := by
        apply List.countP_eq_zero.mpr
        intro t0 ht0
        simp only [decide_eq_true_eq]
        intro heq
        exact hnd.1 (ht ▸ heq ▸ List.mem_map_of_mem (fun t1 => t1.id) ht0)
      rw [List.countP_cons]
      simp [ht, hzero]
    · have hmem2 : ∃ t0 ∈ ts, t0.id = tid := by
        obtain ⟨t0, h1, h2⟩ := hmem
        rcases List.mem_cons.mp h1 with h | h
        · exact absurd (h ▸ h2) ht
        · exact ⟨t0, h, h2⟩
      rw [List.countP_cons]
      simp [ht, ih hnd.2 hmem2]

/-- The team list built by initializeDraft, before sorting. -/
theorem initializeDraft_teams_perm (userTeamName : String) (userDraftPosition : ℕ)
    (settings : DraftSettings) (aiProfileIds : List String)
    (availablePlayers : List Player) (draftId : String) (now : ℕ) :
    (initializeDraft userTeamName userDraftPosition settings aiProfileIds availablePlayers
        draftId now).teams.Perm
      ({ id := "team-user", name := userTeamName, isUser := true, roster := [],
          needs := mkInitialNeeds, byeWeekCount := [],
          draftPosition := userDraftPosition } ::
        (((List.range settings.numTeams).map (fun i => i + 1)).filter
          (fun i => i ≠ userDraftPosition)).map
          (fun i =>
            { id := "team-" ++ decimalString i, name := "Team " ++ decimalString i,
              isUser := false, roster := [], needs := mkInitialNeeds,
              byeWeekCount := [], draftPosition := i })) :=
  List.perm_insertionSort _ _

/-- What a passing validation guarantees: the draft is running, the team
to act is the caller, and the player is not among the picks. -/
theorem validatePick_none_facts (s : DraftState) (teamId playerId : String)
    (h : validatePick s teamId playerId = none) :
    s.status = DraftStatus.inProgress ∧
    s.draftOrder[s.currentPickIndex]? = some teamId ∧
    (∀ pk ∈ s.picks, pk.playerId ≠ playerId) := by
  unfold validatePick at h
  split_ifs at h with h1 h2 h3 h4
  refine ⟨not_not.mp h1, not_not.mp h2, ?_⟩
  intro pk hpk heq
  exact h4 (List.any_eq_true.mpr ⟨pk, hpk, by simp [heq]⟩)

/-- The updated snapshot built by a successful executePick maintains the
draft invariant. -/
theorem executePick_updated_inv (s : DraftState) (teamId playerId : String) (now : ℕ)
    (player : Player) (team : Team) (inv : DraftInv s)
    (hv : validatePick s teamId playerId = none)
    (hfp : s.availablePlayers.find? (fun p => p.id = playerId) = some player)
    (hft : s.teams.find? (fun t => t.id = teamId) = some team)
    (newPick : DraftPick) (hnp : newPick.playerId = playerId) :
    DraftInv { s with
      teams := s.teams.map (fun t =>
        if t.id = teamId then { t with roster := t.roster ++ [player] } else t)
      picks := s.picks ++ [newPick]
      availablePlayers := s.availablePlayers.filter (fun p => p.id ≠ playerId)
      currentPickIndex := s.currentPickIndex + 1
      status :=
        if isDraftComplete { s with picks := s.picks ++ [newPick] } then
          DraftStatus.completed
        else DraftStatus.inProgress
      updatedAt := now } := by
  obtain ⟨hstat, hord, hnotpicked⟩ := validatePick_none_facts s teamId playerId hv
  have hplayer_id : player.id = playerId := by
    have := List.find?_some hfp
    simpa using this
  have hteam_mem : team ∈ s.teams := List.mem_of_find?_eq_some hft
  have hteam_id : team.id = teamId := by
    have := List.find?_some hft
    simpa using this
  have hidx_lt : s.currentPickIndex < s.draftOrder.length :=
    (List.getElem?_eq_some_iff.mp hord).1
  have hlen_lt : s.picks.length < s.settings.numTeams * s.settings.numRounds := by
    rw [← inv.order_len, ← inv.idx_eq]
    exact hidx_lt
  constructor
  case idx_eq =>
    show s.currentPickIndex + 1 = (s.picks ++ [newPick]).length
    simp [inv.idx_eq]
  case picks_le =>
    show (s.picks ++ [newPick]).length ≤ s.settings.numTeams * s.settings.numRounds
    simp only [List.length_append, List.length_cons, List.length_nil]
    omega
  case status_iff =>
    show (if isDraftComplete { s with picks := s.picks ++ [newPick] } then
        DraftStatus.completed else DraftStatus.inProgress) = DraftStatus.completed ↔
      ((s.picks ++ [newPick]).length = s.settings.numTeams * s.settings.numRounds ∧
        1 ≤ s.settings.numTeams * s.settings.numRounds)
    have hlen : (s.picks ++ [newPick]).length = s.picks.length + 1 := by simp
    by_cases hc : s.settings.numTeams * s.settings.numRounds ≤ s.picks.length + 1
    · rw [if_pos (by simp [isDraftComplete, hlen, hc])]
      constructor
      · intro _
        constructor
        · omega
        · omega
      · intro _
        rfl
    · rw [if_neg (by simp [isDraftComplete, hlen]; omega)]
      constructor
      · intro habs
        exact absurd habs (by simp)
      · intro hiff
        rw [hlen] at hiff
        omega
  case picked_absent =>
    intro pk hpk pl hpl
    have hpl2 := List.mem_filter.mp hpl
    have hplne : pl.id ≠ playerId := by simpa using hpl2.2
    rcases List.mem_append.mp hpk with hold | hnew
    · exact inv.picked_absent pk hold pl hpl2.1
    · have : pk = newPick := by simpa using hnew
      rw [this, hnp]
      exact hplne
  case picked_one_roster =>
    intro pk hpk
    show (s.teams.map (fun t =>
      if t.id = teamId then { t with roster := t.roster ++ [player] } else t)).countP
        (fun t => t.roster.any (fun q => q.id = pk.playerId)) = 1
    rw [List.countP_map]
    rcases List.mem_append.mp hpk with hold | hnew
    · have hne : pk.playerId ≠ playerId := hnotpicked pk hold
      have hpoint : ∀ t ∈ s.teams,
          ((fun t => t.roster.any (fun q => q.id = pk.playerId)) ∘ (fun t =>
            if t.id = teamId then { t with roster := t.roster ++ [player] } else t)) t =
          (fun t => t.roster.any (fun q => q.id = pk.playerId)) t := by
        intro t _
        by_cases htid : t.id = teamId
        · simp only [Function.comp_apply, if_pos htid, List.any_append]
          have : [player].any (fun q => q.id = pk.playerId) = false := by
            simp [hplayer_id, Ne.symm hne]
          rw [this, Bool.or_false]
        · simp [Function.comp_apply, if_neg htid]
      rw [countP_congr_mem _ _ s.teams hpoint]
      exact inv.picked_one_roster pk hold
    · have hpkeq : pk = newPick := by simpa using hnew
      have hpoint : ∀ t ∈ s.teams,
          ((fun t => t.roster.any (fun q => q.id = pk.playerId)) ∘ (fun t =>
            if t.id = teamId then { t with roster := t.roster ++ [player] } else t)) t =
          (fun t => (t.id = teamId : Bool)) t := by
        intro t ht
        by_cases htid : t.id = teamId
        · simp only [Function.comp_apply, if_pos htid, List.any_append, hpkeq, hnp]
          have : [player].any (fun q => q.id = playerId) = true := by
            simp [hplayer_id]
          rw [this, Bool.or_true]
          simp [htid]
        · simp only [Function.comp_apply, if_neg htid, hpkeq, hnp]
          have hfalse : t.roster.any (fun q => q.id = playerId) = false := by
            apply List.any_eq_false.mpr
            intro q hq
            simp only [decide_eq_true_eq]
            intro heq
            obtain ⟨pkx, hpkx, hpidx⟩ := inv.roster_from_picks t ht q hq
            exact hnotpicked pkx hpkx (hpidx.trans heq)
          rw [hfalse]
          simp [htid]
      rw [countP_congr_mem _ _ s.teams hpoint]
      exact countP_id_eq_one teamId s.teams inv.ids_nodup ⟨team, hteam_mem, hteam_id⟩
  case order_len => exact inv.order_len
  case ids_nodup =>
    show ((s.teams.map (fun t =>
      if t.id = teamId then { t with roster := t.roster ++ [player] } else t)).map
        (fun t => t.id)).Nodup
    rw [List.map_map]
    have hcomp : ((fun t => t.id) ∘ (fun t =>
        if t.id = teamId then { t with roster := t.roster ++ [player] } else t)) =
        fun (t : Team) => t.id := by
      funext t
      by_cases htid : t.id = teamId <;> simp [htid]
    rw [hcomp]
    exact inv.ids_nodup
  case roster_from_picks =>
    intro t2 ht2 q hq
    obtain ⟨t, ht, rfl⟩ := List.mem_map.mp ht2
    by_cases htid : t.id = teamId
    · rw [if_pos htid] at hq
      rcases List.mem_append.mp hq with holdq | hnewq
    -- hq lives on the updated roster
      · obtain ⟨pkx, hpkx, hpidx⟩ := inv.roster_from_picks t ht q holdq
        exact ⟨pkx, List.mem_append_left _ hpkx, hpidx⟩
      · have : q = player := by simpa using hnewq
        exact ⟨newPick, List.mem_append_right _ (by simp),
          by rw [hnp, this, hplayer_id]⟩
    · rw [if_neg htid] at hq
      obtain ⟨pkx, hpkx, hpidx⟩ := inv.roster_from_picks t ht q hq
      exact ⟨pkx, List.mem_append_left _ hpkx, hpidx⟩
  case bye_empty =>
    intro t2 ht2
    obtain ⟨t, ht, rfl⟩ := List.mem_map.mp ht2
    by_cases htid : t.id = teamId
    · rw [if_pos htid]
      exact inv.bye_empty t ht
    · rw [if_neg htid]
      exact inv.bye_empty t ht
  case teams_ge => exact inv.teams_ge

/-- The initial state of a draft maintains the draft invariant. -/
theorem initializeDraft_inv (userTeamName : String) (userDraftPosition : ℕ)
    (settings : DraftSettings) (aiProfileIds : List String)
    (availablePlayers : List Player) (draftId : String) (now : ℕ)
    (h1 : 1 ≤ userDraftPosition) (h2 : userDraftPosition ≤ settings.numTeams) :
    DraftInv (initializeDraft userTeamName userDraftPosition settings aiProfileIds
      availablePlayers draftId now) := by
  have hperm := initializeDraft_teams_perm userTeamName userDraftPosition settings
    aiProfileIds availablePlayers draftId now
  have hnums_nodup : (((List.range settings.numTeams).map (fun i => i + 1)).filter
      (fun i => i ≠ userDraftPosition)).Nodup := by
    apply List.Nodup.filter
    exact (List.nodup_range settings.numTeams).map (fun a b hab => by omega)
  have hmem_pos : userDraftPosition ∈ (List.range settings.numTeams).map (fun i => i + 1) :=
    List.mem_map.mpr ⟨userDraftPosition - 1, List.mem_range.mpr (by omega), by omega⟩
  have hteams_len : (initializeDraft userTeamName userDraftPosition settings aiProfileIds
      availablePlayers draftId now).teams.length = settings.numTeams := by
    rw [hperm.length_eq, List.length_cons, List.length_map,
      filter_ne_length userDraftPosition _
        ((List.nodup_range settings.numTeams).map (fun a b hab => by omega)) hmem_pos,
      List.length_map, List.length_range]
    omega
  have hmem_teams : ∀ t ∈ (initializeDraft userTeamName userDraftPosition settings
      aiProfileIds availablePlayers draftId now).teams,
      t.roster = [] ∧ t.byeWeekCount = [] := by
    intro t ht
    rw [hperm.mem_iff] at ht
    rcases List.mem_cons.mp ht with h | h
    · rw [h]
      exact ⟨rfl, rfl⟩
    · obtain ⟨i, _, rfl⟩ := List.mem_map.mp h
      exact ⟨rfl, rfl⟩
  constructor
  case idx_eq => rfl
  case picks_le => exact Nat.zero_le _
  case status_iff =>
    show DraftStatus.inProgress = DraftStatus.completed ↔
      ((List.nil (α := DraftPick)).length = settings.numTeams * settings.numRounds ∧
        1 ≤ settings.numTeams * settings.numRounds)
    constructor
    · intro habs
      exact absurd habs (by simp)
    · intro hiff
      simp only [List.length_nil] at hiff
      omega
  case picked_absent =>
    intro pk hpk
    exact absurd hpk (List.not_mem_nil pk)
  case picked_one_roster =>
    intro pk hpk
    exact absurd hpk (List.not_mem_nil pk)
  case order_len =>
    have hord : (initializeDraft userTeamName userDraftPosition settings aiProfileIds
        availablePlayers draftId now).draftOrder =
        generateSnakeDraftOrder (initializeDraft userTeamName userDraftPosition settings
          aiProfileIds availablePlayers draftId now).teams settings.numRounds := rfl
    show (initializeDraft userTeamName userDraftPosition settings aiProfileIds
        availablePlayers draftId now).draftOrder.length =
      settings.numTeams * settings.numRounds
    rw [hord, snakeOrder_length, hteams_len]
  case ids_nodup =>
    have hidsperm := hperm.map (fun t => t.id)
    rw [hidsperm.nodup_iff]
    simp only [List.map_cons, List.map_map]
    rw [List.nodup_cons]
    constructor
    · intro hmem
      obtain ⟨i, _, heq⟩ := List.mem_map.mp hmem
      exact team_ai_id_ne_user i heq
    · refine (List.nodup_map_iff_inj_on hnums_nodup).mpr ?_
      intro x _ y _ hxy
      exact team_ai_id_inj hxy
  case roster_from_picks =>
    intro t ht q hq
    rw [(hmem_teams t ht).1] at hq
    exact absurd hq (List.not_mem_nil q)
  case bye_empty =>
    intro t ht
    exact (hmem_teams t ht).2
  case teams_ge =>
    show 1 ≤ settings.numTeams
    omega

/-- Every reachable state maintains the draft invariant. -/
theorem reachable_inv (s : DraftState) (h : Reachable s) : DraftInv s := by
  induction h with
  | init userTeamName userDraftPosition settings aiProfileIds availablePlayers draftId
      now h1 h2 =>
    exact initializeDraft_inv userTeamName userDraftPosition settings aiProfileIds
      availablePlayers draftId now h1 h2
  | step s teamId playerId now s2 _ hp ih =>
    unfold executePick at hp
    split at hp
    · simp at hp
    · rename_i hv
      split at hp
      · simp at hp
      · rename_i player hfp
        split at hp
        · simp at hp
        · rename_i team hft
          simp only [PickResult.mk.injEq, Option.some.injEq, true_and] at hp
          rw [← hp]
          exact executePick_updated_inv s teamId playerId now player team ih hv hfp hft
            _ rfl

/-- C1 amended: on every reachable state of a draft with at least one
round, currentPickIndex equals picks.length, the status is completed
exactly when picks.length reaches numTeams times numRounds, every picked
player is gone from availablePlayers and sits on exactly one roster, and
the precomputed order has length numTeams times numRounds.  The
one-round-minimum hypothesis is forced by the zero-round counterexample,
where the initial state is in_progress with zero of zero picks made. -/
theorem c1_invariant (s : DraftState) (hs : Reachable s)
    (hr : 1 ≤ s.settings.numRounds) : draftInvariantProps s := by
  have inv := reachable_inv s hs
  have htot : 1 ≤ s.settings.numTeams * s.settings.numRounds :=
    Nat.mul_pos inv.teams_ge hr
  refine ⟨inv.idx_eq, ?_, ?_, inv.order_len⟩
  · constructor
    · intro hc
      exact (inv.status_iff.mp hc).1
    · intro hlen
      exact inv.status_iff.mpr ⟨hlen, htot⟩
  · intro pk hpk
    exact ⟨inv.picked_absent pk hpk, inv.picked_one_roster pk hpk⟩

/-- Witness for c1_invariant: the completed two-pick one-team draft. -/
theorem c1_witness : draftInvariantProps exStateC :=
  c1_invariant exStateC
    (Reachable.step exStateB "team-user" "p2" 2 exStateC
      (Reachable.step exStateA "team-user" "p1" 1 exStateB
        (Reachable.init "User" 1 exSettings2 [] [exPlayer, exPlayer2] "draft" 0
          (by decide) (by decide))
        (by decide))
      (by decide))
    (by decide)

/-- C4: on every reachable state, the run detector applied to the last
five picks and the availablePlayers of the state finds nothing — every
picked player has been removed from the pool the tally resolves against —
so the panic bonus and the runScore breakdown entry of scorePlayer are
zero for every candidate and every panic factor. -/
theorem c4_run_detection_zero (s : DraftState) (hs : Reachable s) :
    detectPositionalRun (lastN 5 s.picks) s.availablePlayers = (none, 0) ∧
    (∀ (player : Player) (panicFactor : ℚ),
      calculatePanicBonus player
        (detectPositionalRun (lastN 5 s.picks) s.availablePlayers) panicFactor = 0) ∧
    (∀ (player : Player) (panicFactor : ℚ),
      scorePlayerRunScore player s s.availablePlayers panicFactor = 0) := by
  have inv := reachable_inv s hs
  have habs : ∀ l : List DraftPick, (∀ pk ∈ l, pk ∈ s.picks) →
      l.filterMap (lookupPos s.availablePlayers) = [] := by
    intro l hl
    apply List.filterMap_eq_nil_iff.mpr
    intro pk hpk
    unfold lookupPos
    rw [List.find?_eq_none.mpr]
    · rfl
    · intro pl hpl
      simp only [decide_eq_true_eq]
      exact inv.picked_absent pk (hl pk hpk) pl hpl
  have hdet : detectPositionalRun (lastN 5 s.picks) s.availablePlayers = (none, 0) := by
    unfold detectPositionalRun
    by_cases hlen : (lastN 5 s.picks).length < 2
    · rw [if_pos hlen]
    · rw [if_neg hlen]
      have hfm : (lastN 5 (lastN 5 s.picks)).filterMap (lookupPos s.availablePlayers) =
          [] := by
        apply habs
        intro pk hpk
        exact List.mem_of_mem_drop (List.mem_of_mem_drop hpk)
      dsimp only
      rw [hfm]
      rfl
  refine ⟨hdet, ?_, ?_⟩
  · intro player panicFactor
    rw [hdet]
    unfold calculatePanicBonus
    rw [if_pos (by simp)]
  · intro player panicFactor
    unfold scorePlayerRunScore
    rw [hdet]
    have hzero : calculatePanicBonus player
        ((none, 0) : Option Position × ℕ) panicFactor = 0 := by
      unfold calculatePanicBonus
      rw [if_pos (by simp)]
    rw [hzero]
    norm_num
    exact jsRound_zero

/-- Witness for c4_run_detection_zero: the two-pick draft, whose pick
window has reached the tally path. -/
theorem c4_witness :
    detectPositionalRun (lastN 5 exStateC.picks) exStateC.availablePlayers = (none, 0) ∧
    scorePlayerRunScore exPlayer exStateC exStateC.availablePlayers 1 = 0 := by
  have hr : Reachable exStateC :=
    Reachable.step exStateB "team-user" "p2" 2 exStateC
      (Reachable.step exStateA "team-user" "p1" 1 exStateB
        (Reachable.init "User" 1 exSettings2 [] [exPlayer, exPlayer2] "draft" 0
          (by decide) (by decide))
        (by decide))
      (by decide)
  exact ⟨(c4_run_detection_zero exStateC hr).1,
    (c4_run_detection_zero exStateC hr).2.2 exPlayer 1⟩

/-- C9: initializeDraft stores an empty byeWeekCount map on every team and
executePick never touches it, so on every reachable state the bye-week
penalty is zero for every team, candidate and awareness, and the byeScore
breakdown entry of scorePlayer is zero as well. -/
theorem c9_bye_penalty_zero (s : DraftState) (hs : Reachable s) :
    ∀ t ∈ s.teams, t.byeWeekCount = [] ∧
      (∀ (player : Player) (aw : ℚ), calculateByeWeekPenalty t player aw = 0) ∧
      (∀ (player : Player) (aw : ℚ), scorePlayerByeScore t player aw = 0) := by
  have inv := reachable_inv s hs
  intro t ht
  have hbe : t.byeWeekCount = [] := inv.bye_empty t ht
  have hpen : ∀ (player : Player) (aw : ℚ), calculateByeWeekPenalty t player aw = 0 := by
    intro player aw
    unfold calculateByeWeekPenalty
    split_ifs with h
    · rfl
    · have hc : byeWeekCountFor t player.byeWeek = 0 := by
        unfold byeWeekCountFor
        rw [hbe]
        rfl
      rw [hc]
      norm_num
      exact jsRound_zero
  refine ⟨hbe, hpen, ?_⟩
  intro player aw
  unfold scorePlayerByeScore
  rw [hpen player aw]
  norm_num
  exact jsRound_zero

/-- Witness for c9_bye_penalty_zero: the picking team of the one-pick
draft, evaluated on a candidate with a real bye week and full awareness. -/
theorem c9_witness :
    exTeam1.byeWeekCount = [] ∧
    calculateByeWeekPenalty exTeam1 exPlayer2 1 = 0 ∧
    scorePlayerByeScore exTeam1 exPlayer2 1 = 0 := by
  have hr : Reachable exState1 :=
    Reachable.step exState0 "team-user" "p1" 1 exState1
      (Reachable.init "User" 1 exSettings [] [exPlayer] "draft" 0 (by decide) (by decide))
      (by decide)
  have h := c9_bye_penalty_zero exState1 hr exTeam1 (by decide)
  exact ⟨h.1, h.2.1 exPlayer2 1, h.2.2 exPlayer2 1⟩

end DraftIQ
